import Mathlib

/-!
Verification development for the self-loom web UI generation core
(`server.py`).  Python strings are embedded as `List Char`, machine
floats for backoff delays as exact rationals, and every network or
random effect as an explicit oracle argument, so all definitions are
executable and claims can be evaluated on concrete inputs.
-/

/-- Python `str` values are embedded as lists of characters. -/
abbrev Str := List Char

/-- Characters stripped by Python `str.strip()` with no argument
(whitespace; restricted to the ASCII whitespace set). -/
def pyIsSpace (c : Char) : Bool :=
  c = ' ' || c = '\t' || c = '\n' || c = '\x0d' || c = '\x0b' || c = '\x0c'

/-- Word characters for the regex `\b` boundary (ASCII `\w`:
letters, digits, underscore). -/
def isWordChar (c : Char) : Bool :=
  c.isAlphanum || c = '_'

/-- The regex character class `[1-5]` from
`re.search(r'\b([1-5])\b', choice_text)` (server.py line 275):
code points of `1` through `5`. -/
def isGraderDigit (c : Char) : Bool :=
  49 ≤ c.toNat && c.toNat ≤ 53

/-- Numeric value of a digit character (`int(match.group(1))`). -/
def charToDigit (c : Char) : Nat :=
  c.toNat - 48

/-- Python `s.strip(chars)` for a one-sided predicate on characters:
drop the matching run at both ends. -/
def pystripPred (p : Char → Bool) (l : Str) : Str :=
  ((l.dropWhile p).reverse.dropWhile p).reverse

/-- Python `s.strip()` (no argument): strip whitespace at both ends. -/
def pystrip (l : Str) : Str :=
  pystripPred pyIsSpace l

/-- A `\b` boundary holds before the current position: we are at the
start of the string or the previous character is not a word character. -/
def boundaryBeforeOk : Option Char → Bool
  | none => true
  | some p => !(isWordChar p)

/-- A `\b` boundary holds after the current character: the rest of the
string is empty or starts with a non-word character. -/
def boundaryAfterOk : Str → Bool
  | [] => true
  | c :: _ => !(isWordChar c)

/-- Left-to-right scan of `re.search(r'\b([1-5])\b', s)`: return the
value of the first digit `1`-`5` that has word boundaries on both
sides, carrying the previously seen character for the left boundary. -/
def reSearchDigit : Option Char → Str → Option Nat
  | _, [] => none
  | prev, c :: rest =>
    if isGraderDigit c && boundaryBeforeOk prev && boundaryAfterOk rest then
      some (charToDigit c)
    else
      reSearchDigit (some c) rest

/-- A digit character whose numeric value lies in `[1, N]`
(spec-side notion of "a digit in [1, N]"). -/
def specDigitInRange (N : Nat) (c : Char) : Bool :=
  c.isDigit && 1 ≤ charToDigit c && charToDigit c ≤ N

/-- Spec-side predicate: position `i` of `s` holds a standalone
(word-boundary-delimited) digit whose value is in `[1, N]`. -/
def standaloneDigitAt (N : Nat) (s : Str) (i : Nat) : Bool :=
  (match s[i]? with
   | some c => specDigitInRange N c
   | none => false) &&
  (match i with
   | 0 => true
   | j + 1 =>
     match s[j]? with
     | some p => !(isWordChar p)
     | none => true) &&
  (match s[i + 1]? with
   | some nx => !(isWordChar nx)
   | none => true)

/-- Condition checked by the scan `reSearchDigit prev s` at index `i`:
the code-side counterpart of `standaloneDigitAt`, relative to the
character `prev` preceding `s`. -/
def scanCondAt (prev : Option Char) (s : Str) (i : Nat) : Bool :=
  (match s[i]? with
   | some c => isGraderDigit c
   | none => false) &&
  (match i with
   | 0 => boundaryBeforeOk prev
   | j + 1 =>
     match s[j]? with
     | some p => !(isWordChar p)
     | none => true) &&
  (match s[i + 1]? with
   | some nx => !(isWordChar nx)
   | none => true)

/-- Numeric value of the character at index `i` (space when absent). -/
def digitValAt (s : Str) (i : Nat) : Nat :=
  charToDigit (s.getD i ' ')

/-!
Resilient call client: `get_completion_with_retry` (server.py lines
92-166).  A network attempt's outcome is an oracle value: a successful
parse of `data["choices"][0]["text"]`, a `requests` exception carrying
an optional HTTP status, or any other exception (which in the source
also covers a malformed response body).
-/

/-- Outcome of one HTTP completion attempt. -/
inductive AttemptOutcome where
  | ok (text : Str)
  | reqErr (status : Option Nat)
  | unexpected
deriving DecidableEq

/-- The fixed no-credential result (`" [No API token configured]"`,
server.py line 101). -/
def noTokenMsg : Str :=
  " [No API token configured]".data

/-- The exhausted-retries failure marker
(`f" [Completion failed after {max_retries} attempts]"`,
server.py line 166). -/
def exhaustedMsg (maxRetries : Nat) : Str :=
  " [Completion failed after ".data ++ (toString maxRetries).data ++ " attempts]".data

/-- An HTTP status in the authorization/payment/forbidden class that
stops retries (`status_code in [401, 402, 403]`, server.py line 146). -/
def isAuthStatus (s : Option Nat) : Bool :=
  s = some 401 || s = some 402 || s = some 403

/-- A failed attempt outcome that the retry loop continues past
(neither a success nor an auth/payment/forbidden stop). -/
def isRetryableFailure : AttemptOutcome → Bool
  | .ok _ => false
  | .reqErr s => !(isAuthStatus s)
  | .unexpected => true

/-- A successful attempt outcome. -/
def isOkOutcome : AttemptOutcome → Bool
  | .ok _ => true
  | _ => false

/-- The retry loop of `get_completion_with_retry` (lines 116-164):
`outcomes a` is the result of the attempt with index `a`; the fuel is
the number of loop iterations left.  Returns the successful text (if
any) together with the number of attempts actually made. -/
def completionGo (outcomes : Nat → AttemptOutcome) : Nat → Nat → Option Str × Nat
  | 0, a => (none, a)
  | fuel + 1, a =>
    match outcomes a with
    | .ok t => (some t, a + 1)
    | .reqErr s =>
      if isAuthStatus s then (none, a + 1)
      else completionGo outcomes fuel (a + 1)
    | .unexpected => completionGo outcomes fuel (a + 1)

/-- `get_completion_with_retry(prompt, ...)` (server.py lines 92-166).
`hasToken` is whether a credential is configured at call time; the
prompt only flows into the network payload, whose reply the outcome
oracle models.  Sleeping between attempts is not observable in the
returned value and is modelled separately by `backoff_delay`. -/
def get_completion_with_retry (prompt : Str) (hasToken : Bool)
    (outcomes : Nat → AttemptOutcome) (maxRetries : Nat := 10) : Str :=
  if hasToken = false then noTokenMsg
  else
    match (completionGo outcomes maxRetries 0).1 with
    | some t => t
    | none => exhaustedMsg maxRetries

/-- Number of HTTP attempts `get_completion_with_retry` makes. -/
def completionAttemptCount (hasToken : Bool) (outcomes : Nat → AttemptOutcome)
    (maxRetries : Nat := 10) : Nat :=
  if hasToken = false then 0 else (completionGo outcomes maxRetries 0).2

/-- `get_completion` (server.py lines 168-174) forwards to the retry
client with the default retry cap. -/
def get_completion (prompt : Str) (hasToken : Bool)
    (outcomes : Nat → AttemptOutcome) : Str :=
  get_completion_with_retry prompt hasToken outcomes 10

/-!
Backoff delay computation inside the `RequestException` handler of
`get_completion_with_retry` (server.py lines 128-142).  Python floats
are embedded as exact rationals; `random.uniform(0.0, 0.2)` is an
oracle value `jitter` with `0 ≤ jitter < 1/5`.
-/

/-- `base_delay` as a function of the attempt index (lines 129-136). -/
def backoff_base_delay (attempt : Nat) : ℚ :=
  if attempt = 0 then 1/10
  else if attempt = 1 then 1/5
  else if attempt = 2 then 1/2
  else min 60 ((2 : ℚ) ^ (attempt - 1))

/-- The computed delay: base plus jitter, overridden to a flat 65
seconds on a rate-limit status 429 (lines 137-142). -/
def backoff_delay (attempt : Nat) (jitter : ℚ) (status : Option Nat) : ℚ :=
  let delay := backoff_base_delay attempt + jitter
  if status = some 429 then 65 else delay

/-!
Judge: `get_grader_choice_with_retry` (server.py lines 231-322).
One attempt's outcome is a chat response content string (lines
268-273), a `requests` exception with optional status, or any other
exception (also covering a malformed body).  `random.randint(1, 5)`
(lines 243 and 320) is modelled by `pyRandint15` applied to an oracle
natural number, which makes the `[1, 5]` range intrinsic.
-/

/-- Outcome of one HTTP judging attempt. -/
inductive GraderOutcome where
  | response (content : Str)
  | reqErr (status : Option Nat)
  | unexpected
deriving DecidableEq

/-- `random.randint(1, 5)`: a uniformly drawn member of `[1, 5]`,
embedded as a function of an oracle draw. -/
def pyRandint15 (r : Nat) : Nat :=
  1 + r % 5

/-- Parsing step applied to a response (lines 273-277):
`choice_text = content.strip()` followed by
`re.search(r'\b([1-5])\b', choice_text)`. -/
def graderParse (content : Str) : Option Nat :=
  reSearchDigit none (pystrip content)

/-- The retry loop of `get_grader_choice_with_retry` (lines 266-318):
return the parsed digit of the first parsable response; fall through
(`none`) when retries are exhausted or an auth/payment/forbidden
status aborts them.  An unparsable response retries immediately. -/
def graderGo (outcomes : Nat → GraderOutcome) : Nat → Nat → Option Nat
  | 0, _ => none
  | fuel + 1, a =>
    match outcomes a with
    | .response content =>
      match graderParse content with
      | some d => some d
      | none => graderGo outcomes fuel (a + 1)
    | .reqErr s =>
      if isAuthStatus s then none
      else graderGo outcomes fuel (a + 1)
    | .unexpected => graderGo outcomes fuel (a + 1)

/-- `get_grader_choice_with_retry(context, completions, ...)`
(server.py lines 231-322).  The context and candidate list flow only
into the ranking prompt (lines 250-254), whose reply the outcome
oracle models; with no credential the call short-circuits to
`random.randint(1, 5)` (lines 241-243), and after the loop falls
through it returns the same random fallback (lines 320-322). -/
def get_grader_choice_with_retry (context : Str) (completions : List Str)
    (hasToken : Bool) (outcomes : Nat → GraderOutcome) (rand : Nat)
    (maxRetries : Nat := 10) : Nat :=
  if hasToken = false then pyRandint15 rand
  else
    match graderGo outcomes maxRetries 0 with
    | some d => d
    | none => pyRandint15 rand

/-- `get_grader_choice` (server.py lines 324-332) forwards to the
retry judge with the default retry cap. -/
def get_grader_choice (context : Str) (completions : List Str)
    (hasToken : Bool) (outcomes : Nat → GraderOutcome) (rand : Nat) : Nat :=
  get_grader_choice_with_retry context completions hasToken outcomes rand 10

/-- A judging attempt that yields an HTTP response whose content has
no parsable digit (the "Grader gave weird response" path, line 279). -/
def attemptUnparsable : GraderOutcome → Bool
  | .response c => (graderParse c).isNone
  | _ => false

/-!
Context window manager: `truncate_text` (server.py lines 334-346).
-/

/-- Python `text[-k:]`: for `k = 0` this is `text[0:]`, the whole
string; otherwise the trailing `k` characters (all of `text` when
`k ≥ len(text)`). -/
def pySliceLast (l : Str) (k : Nat) : Str :=
  if k = 0 then l else l.drop (l.length - k)

/-- `truncate_text(text, max_tokens)` (server.py lines 334-346). -/
def truncate_text (text : Str) (max_tokens : Nat) : Str :=
  let max_chars := max_tokens * 4
  if text.length ≤ max_chars then text
  else pySliceLast text max_chars

/-!
Candidate generator: `generate_completions_parallel` (server.py lines
348-374).  `completions = [None] * count`; worker `i` performs exactly
one write, `completions[i] = <its call result>`; the interleaving of
the five workers is an oracle `order` listing slot indices in the
order their writes land.  A thread join means every index occurs, so a
faithful schedule is a permutation of `range count`.
-/

/-- Replay the workers' slot writes in schedule order
(last write wins, as for a Python list assignment). -/
def applyWrites (init : List (Option Str)) (order : List Nat)
    (gen : Nat → Str) : List (Option Str) :=
  order.foldl (fun arr i => arr.set i (some (gen i))) init

/-- `generate_completions_parallel` (lines 348-374): start from
`[None] * count` and apply every worker's write following the
scheduler interleaving `order`. -/
def generate_completions_parallel (gen : Nat → Str) (order : List Nat)
    (count : Nat) : List (Option Str) :=
  applyWrites (List.replicate count none) order gen

/-!
Loom loop: one round of the `generate_stream` generator body
(server.py lines 624-672), together with the round-3 naming step
`generate_document_name` (lines 419-447).
-/

/-- `BASE_CONTEXT_LIMIT` (default config value 8000, lines 43 and 87). -/
def BASE_CONTEXT_LIMIT : Nat := 8000

/-- `GRADER_CONTEXT_LIMIT` (default config value 4000, lines 44 and 88). -/
def GRADER_CONTEXT_LIMIT : Nat := 4000

/-- One server-sent event of the stream (section 6 catalog). -/
inductive Event where
  | init (text : Str)
  | iterationStart (iteration : Nat)
  | completionStart (index : Nat)
  | completionDone (index : Nat) (text : Option Str)
  | gradingStart
  | gradingDone (chosenIndex : Nat) (chosenText : Option Str)
  | textUpdated (fullText : Str)
  | documentNamed (name : Str)
  | error (message : Str)
deriving DecidableEq

/-- External effects of one round: credential presence, the outcome
oracles for the five generation calls, the scheduler interleaving of
their slot writes, the judge's oracles, and the naming call's oracle. -/
structure LoomEnv where
  hasToken : Bool
  genOutcomes : Nat → Nat → AttemptOutcome
  schedule : List Nat
  graderOutcomes : Nat → GraderOutcome
  graderRand : Nat
  nameOutcomes : Nat → AttemptOutcome

/-- The round's candidate slots:
`completions = generate_completions_parallel(base_context, count=5, ...)`
(line 643), each worker being one `get_completion_with_retry` call on
the generation context (lines 362-364). -/
def roundCompletions (env : LoomEnv) (full_text : Str) : List (Option Str) :=
  let base_context := truncate_text full_text BASE_CONTEXT_LIMIT
  generate_completions_parallel
    (fun i => get_completion_with_retry base_context env.hasToken (env.genOutcomes i) 10)
    env.schedule 5

/-- `chosen_index = get_grader_choice(grader_context, completions, ...)`
(lines 650-651).  After the thread join every slot holds a string;
`getD []` discharges the slot type's `none`, which no schedule that
covers all five workers can leave behind. -/
def roundChosenIndex (env : LoomEnv) (full_text : Str) : Nat :=
  let grader_context := truncate_text full_text GRADER_CONTEXT_LIMIT
  get_grader_choice grader_context
    ((roundCompletions env full_text).map (fun o => o.getD []))
    env.hasToken env.graderOutcomes env.graderRand

/-- `chosen_text = completions[chosen_index - 1]` (line 654). -/
def roundChosenText (env : LoomEnv) (full_text : Str) : Str :=
  ((roundCompletions env full_text).getD (roundChosenIndex env full_text - 1) none).getD []

/-- `generate_document_name(content)` (server.py lines 419-447): build
the naming prompt from the grader-budget view of the content, make one
`get_completion` call, then sanitize: `strip()`, `strip('"')`,
`strip("'")`, `strip()`, cap at 50 characters, default `"Untitled"`.
The prompt template only wraps `truncated_content` on its way to the
network, which the outcome oracle models. -/
def generate_document_name (env : LoomEnv) (content : Str) : Str :=
  let truncated_content := truncate_text content GRADER_CONTEXT_LIMIT
  let response := get_completion truncated_content env.hasToken env.nameOutcomes
  let name := pystrip (pystripPred (fun c => c = '"')
    (pystripPred (fun c => c = Char.ofNat 39) (pystrip response)))
  let name := if 50 < name.length then name.take 50 else name
  if name = [] then "Untitled".data else name

/-- The `error` event's message (`'Grader failed'`, line 669). -/
def graderFailedMsg : Str :=
  "Grader failed".data

/-- One iteration of the `while True` body of `generate_stream`
(server.py lines 630-672): the emitted events in order, and `some`
of the updated document when the round reaches its append (otherwise
`none`, the `break` of the error branch). -/
def loomRound (env : LoomEnv) (iteration : Nat) (full_text : Str) :
    List Event × Option Str :=
  let completions := roundCompletions env full_text
  let startEvents : List Event :=
    [.iterationStart iteration, .completionStart 1, .completionStart 2,
     .completionStart 3, .completionStart 4, .completionStart 5]
  let doneEvents := completions.enum.map (fun p => Event.completionDone (p.1 + 1) p.2)
  let chosen_index := roundChosenIndex env full_text
  if chosen_index ≠ 0 ∧ 1 ≤ chosen_index ∧ chosen_index ≤ completions.length then
    let chosen_text := roundChosenText env full_text
    let new_text := full_text ++ chosen_text
    let namingEvents : List Event :=
      if iteration = 3 then [.documentNamed (generate_document_name env new_text)] else []
    (startEvents ++ doneEvents ++
      [.gradingStart, .gradingDone chosen_index (completions.getD (chosen_index - 1) none),
       .textUpdated new_text] ++ namingEvents,
     some new_text)
  else
    (startEvents ++ doneEvents ++ [.gradingStart, .error graderFailedMsg], none)

/-!
Concrete oracle environments used to evaluate the model on explicit
inputs.
-/

/-- A round in which every generation call succeeds with the empty
completion and the judge answers `1` on its first attempt. -/
def envEmptyWinner : LoomEnv where
  hasToken := true
  genOutcomes := fun _ _ => .ok []
  schedule := [0, 1, 2, 3, 4]
  graderOutcomes := fun _ => .response ['1']
  graderRand := 0
  nameOutcomes := fun _ => .ok []

/-- A round in which every generation call succeeds with the text
`"x"` and the judge answers `2` on its first attempt. -/
def envPlainWinner : LoomEnv where
  hasToken := true
  genOutcomes := fun _ _ => .ok ['x']
  schedule := [0, 1, 2, 3, 4]
  graderOutcomes := fun _ => .response ['2']
  graderRand := 0
  nameOutcomes := fun _ => .ok []

/-- A judge-call oracle whose every response contains no digit. -/
def noDigitOutcomes : Nat → GraderOutcome :=
  fun _ => .response ("no idea".data)

/-- The response text `"4 and 2"`. -/
def fourAndTwo : Str :=
  "4 and 2".data

/-- A judge-call oracle that always answers `"4 and 2"`. -/
def fourAndTwoOutcomes : Nat → GraderOutcome :=
  fun _ => .response fourAndTwo

/-- The response text `"I will go with option 3 because..."`. -/
def option3Response : Str :=
  "I will go with option 3 because...".data

/-- A judge-call oracle that always gives the verbose option-3 answer. -/
def option3Outcomes : Nat → GraderOutcome :=
  fun _ => .response option3Response

/-- A three-candidate list (a judging call site with `N = 3`). -/
def threeCandidates : List Str :=
  [['a'], ['b'], ['c']]

/-!
Lemmas about the candidate generator's slot writes.
-/

lemma applyWrites_cons (init : List (Option Str)) (j : Nat) (rest : List Nat)
    (gen : Nat → Str) :
    applyWrites init (j :: rest) gen = applyWrites (init.set j (some (gen j))) rest gen := rfl

lemma applyWrites_length (order : List Nat) (init : List (Option Str)) (gen : Nat → Str) :
    (applyWrites init order gen).length = init.length := by
  induction order generalizing init with
  | nil => rfl
  | cons j rest ih =>
    rw [applyWrites_cons, ih, List.length_set]

lemma applyWrites_getElem?_not_mem (order : List Nat) (init : List (Option Str))
    (gen : Nat → Str) (i : Nat) (hi : i ∉ order) :
    (applyWrites init order gen)[i]? = init[i]? := by
  induction order generalizing init with
  | nil => rfl
  | cons j rest ih =>
    have hji : j ≠ i := by
      intro h
      exact hi (h ▸ List.mem_cons_self j rest)
    rw [applyWrites_cons, ih _ (fun h => hi (List.mem_cons_of_mem j h)),
      List.getElem?_set_ne hji]

lemma applyWrites_getElem?_mem (order : List Nat) (init : List (Option Str))
    (gen : Nat → Str) (i : Nat) (hmem : i ∈ order) (hlen : i < init.length) :
    (applyWrites init order gen)[i]? = some (some (gen i)) := by
  induction order generalizing init with
  | nil => exact absurd hmem (List.not_mem_nil i)
  | cons j rest ih =>
    rw [applyWrites_cons]
    by_cases hr : i ∈ rest
    · exact ih _ hr (by rw [List.length_set]; exact hlen)
    · have hij : i = j := by
        rcases List.mem_cons.mp hmem with h | h
        · exact h
        · exact absurd h hr
      subst hij
      rw [applyWrites_getElem?_not_mem rest _ gen i hr,
        List.getElem?_set_self hlen]

/-- Whatever interleaving the scheduler produces, as long as every
worker's write lands (the thread join), the candidate array is the
slot-ordered array of the workers' results. -/
lemma generate_completions_parallel_perm (gen : Nat → Str) (count : Nat)
    (order : List Nat) (hperm : order.Perm (List.range count)) :
    generate_completions_parallel gen order count =
      (List.range count).map (fun i => some (gen i)) := by
  unfold generate_completions_parallel
  apply List.ext_getElem?
  intro n
  by_cases hn : n < count
  · rw [applyWrites_getElem?_mem order _ gen n
      (hperm.mem_iff.mpr (List.mem_range.mpr hn))
      (by rw [List.length_replicate]; exact hn)]
    rw [List.getElem?_map, List.getElem?_range hn]
    rfl
  · rw [List.getElem?_eq_none, List.getElem?_eq_none]
    · rw [List.length_map, List.length_range]; omega
    · rw [applyWrites_length, List.length_replicate]; omega

/-!
Lemmas about the resilient call client's retry loop.
-/

lemma completionGo_step_ok (outcomes : Nat → AttemptOutcome) (f a : Nat) (t : Str)
    (h : outcomes a = .ok t) :
    completionGo outcomes (f + 1) a = (some t, a + 1) := by
  simp [completionGo, h]

lemma completionGo_step_auth (outcomes : Nat → AttemptOutcome) (f a : Nat)
    (s : Option Nat) (h : outcomes a = .reqErr s) (hs : isAuthStatus s = true) :
    completionGo outcomes (f + 1) a = (none, a + 1) := by
  simp [completionGo, h, hs]

lemma completionGo_step_retry (outcomes : Nat → AttemptOutcome) (f a : Nat)
    (s : Option Nat) (h : outcomes a = .reqErr s) (hs : isAuthStatus s = false) :
    completionGo outcomes (f + 1) a = completionGo outcomes f (a + 1) := by
  simp [completionGo, h, hs]

lemma completionGo_step_unexpected (outcomes : Nat → AttemptOutcome) (f a : Nat)
    (h : outcomes a = .unexpected) :
    completionGo outcomes (f + 1) a = completionGo outcomes f (a + 1) := by
  simp [completionGo, h]

lemma completionGo_ok_exists (outcomes : Nat → AttemptOutcome) :
    ∀ (fuel a : Nat) (t : Str), (completionGo outcomes fuel a).1 = some t →
      ∃ j, j < fuel ∧ outcomes (a + j) = .ok t := by
  intro fuel
  induction fuel with
  | zero =>
    intro a t h
    simp [completionGo] at h
  | succ f ih =>
    intro a t h
    cases hout : outcomes a with
    | ok s =>
      rw [completionGo_step_ok outcomes f a s hout] at h
      have hst : s = t := Option.some.inj h
      exact ⟨0, Nat.succ_pos f, by rw [Nat.add_zero, hout, hst]⟩
    | reqErr s =>
      by_cases hs : isAuthStatus s = true
      · rw [completionGo_step_auth outcomes f a s hout hs] at h
        simp at h
      · rw [completionGo_step_retry outcomes f a s hout (by simpa using hs)] at h
        obtain ⟨j, hj, hoj⟩ := ih (a + 1) t h
        exact ⟨j + 1, by omega, by rw [show a + (j + 1) = a + 1 + j by omega]; exact hoj⟩
    | unexpected =>
      rw [completionGo_step_unexpected outcomes f a hout] at h
      obtain ⟨j, hj, hoj⟩ := ih (a + 1) t h
      exact ⟨j + 1, by omega, by rw [show a + (j + 1) = a + 1 + j by omega]; exact hoj⟩

lemma completionGo_none_of_no_ok (outcomes : Nat → AttemptOutcome) :
    ∀ (fuel a : Nat), (∀ j, j < fuel → isOkOutcome (outcomes (a + j)) = false) →
      (completionGo outcomes fuel a).1 = none := by
  intro fuel
  induction fuel with
  | zero => intro a _; rfl
  | succ f ih =>
    intro a h
    have h0 := h 0 (Nat.succ_pos f)
    rw [Nat.add_zero] at h0
    have hrec : ∀ j, j < f → isOkOutcome (outcomes (a + 1 + j)) = false := by
      intro j hj
      rw [show a + 1 + j = a + (j + 1) by omega]
      exact h (j + 1) (by omega)
    cases hout : outcomes a with
    | ok s => rw [hout] at h0; simp [isOkOutcome] at h0
    | reqErr s =>
      by_cases hs : isAuthStatus s = true
      · rw [completionGo_step_auth outcomes f a s hout hs]
      · rw [completionGo_step_retry outcomes f a s hout (by simpa using hs)]
        exact ih (a + 1) hrec
    | unexpected =>
      rw [completionGo_step_unexpected outcomes f a hout]
      exact ih (a + 1) hrec

lemma completionGo_auth_stop (outcomes : Nat → AttemptOutcome) :
    ∀ (k fuel a : Nat) (s : Option Nat), k < fuel →
      (∀ j, j < k → isRetryableFailure (outcomes (a + j)) = true) →
      isAuthStatus s = true → outcomes (a + k) = .reqErr s →
      completionGo outcomes fuel a = (none, a + k + 1) := by
  intro k
  induction k with
  | zero =>
    intro fuel a s hk hpre hs hout
    cases fuel with
    | zero => omega
    | succ f =>
      rw [Nat.add_zero] at hout
      rw [completionGo_step_auth outcomes f a s hout hs, Nat.add_zero]
  | succ k ih =>
    intro fuel a s hk hpre hs hout
    cases fuel with
    | zero => omega
    | succ f =>
      have h0 := hpre 0 (Nat.succ_pos k)
      rw [Nat.add_zero] at h0
      have hpre' : ∀ j, j < k → isRetryableFailure (outcomes (a + 1 + j)) = true := by
        intro j hj
        rw [show a + 1 + j = a + (j + 1) by omega]
        exact hpre (j + 1) (by omega)
      have hout' : outcomes (a + 1 + k) = .reqErr s := by
        rw [show a + 1 + k = a + (k + 1) by omega]
        exact hout
      have hgoal : completionGo outcomes f (a + 1) = (none, a + 1 + k + 1) :=
        ih f (a + 1) s (by omega) hpre' hs hout'
      have hstep : completionGo outcomes (f + 1) a = completionGo outcomes f (a + 1) := by
        cases ho : outcomes a with
        | ok t => rw [ho] at h0; simp [isRetryableFailure] at h0
        | reqErr s' =>
          rw [ho] at h0
          have hna : isAuthStatus s' = false := by
            simpa [isRetryableFailure] using h0
          exact completionGo_step_retry outcomes f a s' ho hna
        | unexpected => exact completionGo_step_unexpected outcomes f a ho
      rw [hstep, hgoal]
      congr 1
      omega

/-!
Lemmas about the judge's retry loop and its random fallback.
-/

lemma graderGo_step_parsed (outcomes : Nat → GraderOutcome) (f a : Nat) (content : Str)
    (d : Nat) (h : outcomes a = .response content) (hp : graderParse content = some d) :
    graderGo outcomes (f + 1) a = some d := by
  simp [graderGo, h, hp]

lemma graderGo_step_unparsed (outcomes : Nat → GraderOutcome) (f a : Nat) (content : Str)
    (h : outcomes a = .response content) (hp : graderParse content = none) :
    graderGo outcomes (f + 1) a = graderGo outcomes f (a + 1) := by
  simp [graderGo, h, hp]

lemma graderGo_step_auth (outcomes : Nat → GraderOutcome) (f a : Nat) (s : Option Nat)
    (h : outcomes a = .reqErr s) (hs : isAuthStatus s = true) :
    graderGo outcomes (f + 1) a = none := by
  simp [graderGo, h, hs]

lemma graderGo_step_retry (outcomes : Nat → GraderOutcome) (f a : Nat) (s : Option Nat)
    (h : outcomes a = .reqErr s) (hs : isAuthStatus s = false) :
    graderGo outcomes (f + 1) a = graderGo outcomes f (a + 1) := by
  simp [graderGo, h, hs]

lemma graderGo_step_unexpected (outcomes : Nat → GraderOutcome) (f a : Nat)
    (h : outcomes a = .unexpected) :
    graderGo outcomes (f + 1) a = graderGo outcomes f (a + 1) := by
  simp [graderGo, h]

lemma reSearchDigit_some_range :
    ∀ (l : Str) (prev : Option Char) (d : Nat), reSearchDigit prev l = some d →
      1 ≤ d ∧ d ≤ 5 := by
  intro l
  induction l with
  | nil => intro prev d h; simp [reSearchDigit] at h
  | cons c rest ih =>
    intro prev d h
    unfold reSearchDigit at h
    by_cases hc : (isGraderDigit c && boundaryBeforeOk prev && boundaryAfterOk rest) = true
    · rw [if_pos hc] at h
      have hd : charToDigit c = d := Option.some.inj h
      have hdig : isGraderDigit c = true := by
        simp only [Bool.and_eq_true] at hc
        exact hc.1.1
      simp only [isGraderDigit, Bool.and_eq_true, decide_eq_true_eq] at hdig
      simp only [charToDigit] at hd
      omega
    · rw [if_neg hc] at h
      exact ih (some c) d h

lemma graderParse_some_range (content : Str) (d : Nat)
    (h : graderParse content = some d) : 1 ≤ d ∧ d ≤ 5 :=
  reSearchDigit_some_range (pystrip content) none d h

lemma graderGo_some_range (outcomes : Nat → GraderOutcome) :
    ∀ (fuel a d : Nat), graderGo outcomes fuel a = some d → 1 ≤ d ∧ d ≤ 5 := by
  intro fuel
  induction fuel with
  | zero => intro a d h; simp [graderGo] at h
  | succ f ih =>
    intro a d h
    cases hout : outcomes a with
    | response content =>
      cases hp : graderParse content with
      | some d' =>
        rw [graderGo_step_parsed outcomes f a content d' hout hp] at h
        exact (Option.some.inj h) ▸ graderParse_some_range content d' hp
      | none =>
        rw [graderGo_step_unparsed outcomes f a content hout hp] at h
        exact ih (a + 1) d h
    | reqErr s =>
      by_cases hs : isAuthStatus s = true
      · rw [graderGo_step_auth outcomes f a s hout hs] at h
        simp at h
      · rw [graderGo_step_retry outcomes f a s hout (by simpa using hs)] at h
        exact ih (a + 1) d h
    | unexpected =>
      rw [graderGo_step_unexpected outcomes f a hout] at h
      exact ih (a + 1) d h

lemma pyRandint15_range (r : Nat) : 1 ≤ pyRandint15 r ∧ pyRandint15 r ≤ 5 := by
  unfold pyRandint15
  omega

lemma get_grader_choice_with_retry_range (context : Str) (completions : List Str)
    (hasToken : Bool) (outcomes : Nat → GraderOutcome) (rand maxRetries : Nat) :
    1 ≤ get_grader_choice_with_retry context completions hasToken outcomes rand maxRetries ∧
      get_grader_choice_with_retry context completions hasToken outcomes rand maxRetries ≤ 5 := by
  unfold get_grader_choice_with_retry
  by_cases ht : hasToken = false
  · rw [if_pos ht]
    exact pyRandint15_range rand
  · rw [if_neg ht]
    cases hg : graderGo outcomes maxRetries 0 with
    | some d => exact graderGo_some_range outcomes maxRetries 0 d hg
    | none => exact pyRandint15_range rand

lemma graderGo_none_of_unparsable (outcomes : Nat → GraderOutcome) :
    ∀ (fuel a : Nat), (∀ j, j < fuel → attemptUnparsable (outcomes (a + j)) = true) →
      graderGo outcomes fuel a = none := by
  intro fuel
  induction fuel with
  | zero => intro a _; rfl
  | succ f ih =>
    intro a h
    have h0 := h 0 (Nat.succ_pos f)
    rw [Nat.add_zero] at h0
    have hrec : ∀ j, j < f → attemptUnparsable (outcomes (a + 1 + j)) = true := by
      intro j hj
      rw [show a + 1 + j = a + (j + 1) by omega]
      exact h (j + 1) (by omega)
    cases hout : outcomes a with
    | response content =>
      rw [hout] at h0
      simp only [attemptUnparsable, Option.isNone_iff_eq_none] at h0
      rw [graderGo_step_unparsed outcomes f a content hout h0]
      exact ih (a + 1) hrec
    | reqErr s => rw [hout] at h0; simp [attemptUnparsable] at h0
    | unexpected => rw [hout] at h0; simp [attemptUnparsable] at h0

/-!
Lemmas about the word-boundary digit scan: stripping whitespace does
not change the result, and the scan returns the first position whose
boundary condition holds.
-/

lemma char_isDigit_toNat (c : Char) : c.isDigit = (48 ≤ c.toNat && c.toNat ≤ 57) := by
  rcases c with ⟨⟨⟨v, hv⟩⟩, h⟩
  simp [Char.isDigit, Char.toNat, Char.le_def, UInt32.le_def, BitVec.le_def, UInt32.toNat]

lemma specDigitInRange_five (c : Char) : specDigitInRange 5 c = isGraderDigit c := by
  simp only [specDigitInRange, isGraderDigit, charToDigit, char_isDigit_toNat]
  rw [Bool.eq_iff_iff]
  simp only [Bool.and_eq_true, decide_eq_true_eq]
  omega

lemma pyIsSpace_not_word (c : Char) (h : pyIsSpace c = true) : isWordChar c = false := by
  simp only [pyIsSpace, Bool.or_eq_true, decide_eq_true_eq] at h
  rcases h with ((((h | h) | h) | h) | h) | h <;> subst h <;> decide

lemma pyIsSpace_not_digit (c : Char) (h : pyIsSpace c = true) : isGraderDigit c = false := by
  simp only [pyIsSpace, Bool.or_eq_true, decide_eq_true_eq] at h
  rcases h with ((((h | h) | h) | h) | h) | h <;> subst h <;> decide

lemma reSearchDigit_congr_prev (l : Str) (p q : Option Char)
    (h : boundaryBeforeOk p = boundaryBeforeOk q) :
    reSearchDigit p l = reSearchDigit q l := by
  cases l with
  | nil => rfl
  | cons c rest => simp only [reSearchDigit, h]

lemma reSearchDigit_all_space (ws : Str) :
    ∀ (p : Option Char), (∀ c, c ∈ ws → pyIsSpace c = true) →
      reSearchDigit p ws = none := by
  induction ws with
  | nil => intro p _; rfl
  | cons c rest ih =>
    intro p h
    have hc : isGraderDigit c = false :=
      pyIsSpace_not_digit c (h c (List.mem_cons_self c rest))
    simp only [reSearchDigit, hc, Bool.false_and, Bool.false_eq_true, if_false]
    exact ih (some c) (fun x hx => h x (List.mem_cons_of_mem c hx))

lemma reSearchDigit_dropWhile_space (l : Str) :
    reSearchDigit none (l.dropWhile pyIsSpace) = reSearchDigit none l := by
  induction l with
  | nil => rfl
  | cons c rest ih =>
    by_cases hc : pyIsSpace c = true
    · rw [List.dropWhile_cons, if_pos hc, ih]
      have hdig : isGraderDigit c = false := pyIsSpace_not_digit c hc
      have hword : isWordChar c = false := pyIsSpace_not_word c hc
      have hstep : reSearchDigit none (c :: rest) = reSearchDigit (some c) rest := by
        simp only [reSearchDigit, hdig, Bool.false_and, Bool.false_eq_true, if_false]
      rw [hstep, reSearchDigit_congr_prev rest (some c) none (by
        simp [boundaryBeforeOk, hword])]
    · rw [List.dropWhile_cons, if_neg hc]

lemma boundaryAfterOk_append_space (rest ws : Str)
    (hws : ∀ c, c ∈ ws → pyIsSpace c = true) :
    boundaryAfterOk (rest ++ ws) = boundaryAfterOk rest := by
  cases rest with
  | nil =>
    cases ws with
    | nil => rfl
    | cons w wr =>
      have := pyIsSpace_not_word w (hws w (List.mem_cons_self w wr))
      simp [boundaryAfterOk, this]
  | cons r rr => simp [boundaryAfterOk]

lemma reSearchDigit_append_space (t ws : Str)
    (hws : ∀ c, c ∈ ws → pyIsSpace c = true) :
    ∀ (p : Option Char), reSearchDigit p (t ++ ws) = reSearchDigit p t := by
  induction t with
  | nil =>
    intro p
    rw [List.nil_append]
    exact reSearchDigit_all_space ws p hws
  | cons c rest ih =>
    intro p
    rw [List.cons_append]
    simp only [reSearchDigit, boundaryAfterOk_append_space rest ws hws]
    by_cases hcond : (isGraderDigit c && boundaryBeforeOk p && boundaryAfterOk rest) = true
    · rw [if_pos hcond, if_pos hcond]
    · rw [if_neg hcond, if_neg hcond]
      exact ih (some c)

lemma reSearchDigit_pystrip (l : Str) :
    reSearchDigit none (pystrip l) = reSearchDigit none l := by
  unfold pystrip pystripPred
  set m := l.dropWhile pyIsSpace with hm
  have hsplit : (m.reverse.dropWhile pyIsSpace).reverse ++
      (m.reverse.takeWhile pyIsSpace).reverse = m := by
    rw [← List.reverse_append, List.takeWhile_append_dropWhile, List.reverse_reverse]
  have hws : ∀ c, c ∈ (m.reverse.takeWhile pyIsSpace).reverse → pyIsSpace c = true := by
    intro c hc
    exact List.mem_takeWhile_imp (List.mem_reverse.mp hc)
  calc reSearchDigit none (m.reverse.dropWhile pyIsSpace).reverse
      = reSearchDigit none ((m.reverse.dropWhile pyIsSpace).reverse ++
          (m.reverse.takeWhile pyIsSpace).reverse) :=
        (reSearchDigit_append_space _ _ hws none).symm
    _ = reSearchDigit none m := by rw [hsplit]
    _ = reSearchDigit none l := reSearchDigit_dropWhile_space l

lemma scanCondAt_zero_cons (prev : Option Char) (c : Char) (rest : Str) :
    scanCondAt prev (c :: rest) 0 =
      (isGraderDigit c && boundaryBeforeOk prev && boundaryAfterOk rest) := by
  cases rest with
  | nil => simp [scanCondAt, boundaryAfterOk]
  | cons r rr => simp [scanCondAt, boundaryAfterOk]

lemma scanCondAt_cons_succ (prev : Option Char) (c : Char) (rest : Str) (k : Nat) :
    scanCondAt prev (c :: rest) (k + 1) = scanCondAt (some c) rest k := by
  cases k with
  | zero => simp [scanCondAt, boundaryBeforeOk, List.getElem?_cons_succ, List.getElem?_cons_zero]
  | succ j => simp [scanCondAt, List.getElem?_cons_succ]

lemma reSearchDigit_of_first (s : Str) :
    ∀ (prev : Option Char) (i : Nat), scanCondAt prev s i = true →
      (∀ j, j < i → scanCondAt prev s j = false) →
      reSearchDigit prev s = some (digitValAt s i) := by
  induction s with
  | nil =>
    intro prev i h1 _
    simp [scanCondAt] at h1
  | cons c rest ih =>
    intro prev i h1 h2
    cases i with
    | zero =>
      rw [scanCondAt_zero_cons] at h1
      simp only [reSearchDigit, h1, if_true]
      simp [digitValAt]
    | succ k =>
      have h0 : scanCondAt prev (c :: rest) 0 = false := h2 0 (Nat.succ_pos k)
      rw [scanCondAt_zero_cons] at h0
      have hstep : reSearchDigit prev (c :: rest) = reSearchDigit (some c) rest := by
        simp only [reSearchDigit, h0, Bool.false_eq_true, if_false]
      rw [hstep]
      rw [scanCondAt_cons_succ] at h1
      have h2' : ∀ j, j < k → scanCondAt (some c) rest j = false := by
        intro j hj
        rw [← scanCondAt_cons_succ prev c rest j]
        exact h2 (j + 1) (by omega)
      rw [ih (some c) k h1 h2']
      simp [digitValAt]

lemma standaloneDigitAt_five_eq_scanCond (s : Str) (i : Nat) :
    standaloneDigitAt 5 s i = scanCondAt none s i := by
  cases h : s[i]? with
  | none => simp [standaloneDigitAt, scanCondAt, h]
  | some c =>
    simp only [standaloneDigitAt, scanCondAt, h, specDigitInRange_five, boundaryBeforeOk]

/-!
Claim C4 — context truncation.
-/

/-- C4: the claim "if `len(text) <= 4*B` then `truncate_text` returns
`text` unchanged; otherwise it returns exactly the trailing `4*B`
characters" fails at budget `B = 0` on a nonempty text: Python's
`text[-0:]` is the whole string, so the code returns `"a"` where the
claim demands the trailing `0` characters, i.e. the empty string. -/
theorem claim_C4_counterexample :
    ¬((['a'] : Str).length ≤ 0 * 4) ∧
    truncate_text ['a'] 0 = ['a'] ∧
    truncate_text ['a'] 0 ≠ (['a'] : Str).drop ((['a'] : Str).length - 0 * 4) := by
  decide

/-- C4 (amended): for every text and budget `B`, if
`len(text) <= 4*B` the text is returned unchanged; if `B >= 1` and
`4*B < len(text)` the result is exactly the trailing `4*B` characters;
and for `B = 0` the text is always returned unchanged (the `text[-0:]`
slip), `truncate_text` being a pure function throughout. -/
theorem claim_C4_theorem (text : Str) (B : Nat) :
    (text.length ≤ B * 4 → truncate_text text B = text) ∧
    (0 < B → B * 4 < text.length →
      truncate_text text B = text.drop (text.length - B * 4) ∧
      (truncate_text text B).length = B * 4) ∧
    (B = 0 → truncate_text text B = text) := by
  refine ⟨?_, ?_, ?_⟩
  · intro h
    simp [truncate_text, h]
  · intro hB hlen
    have hnot : ¬(text.length ≤ B * 4) := by omega
    have heq : truncate_text text B = text.drop (text.length - B * 4) := by
      simp only [truncate_text, if_neg hnot, pySliceLast]
      rw [if_neg (by omega)]
    refine ⟨heq, ?_⟩
    rw [heq, List.length_drop]
    omega
  · intro hB
    subst hB
    by_cases h : text.length ≤ 0 * 4
    · simp only [truncate_text, if_pos h]
    · simp only [truncate_text, if_neg h, pySliceLast, Nat.zero_mul]
      simp

/-- C4 witness: a length-8 text with budget 1 keeps exactly its
trailing 4 characters. -/
theorem claim_C4_witness :
    truncate_text ("abcdefgh".data) 1 = "efgh".data ∧
    (truncate_text ("abcdefgh".data) 1).length = 1 * 4 := by
  have h := (claim_C4_theorem ("abcdefgh".data) 1).2.1 (by decide) (by decide)
  exact ⟨by rw [h.1]; decide, h.2⟩

/-!
Claim C8 — backoff timing.
-/

/-- C8: the claim asserts the attempt-3 delay lies in `[1.0, 1.2)`
seconds, but the code computes `min(60, 2^(3-1)) = 4`, so with zero
jitter and a retryable 502 status the delay is `4`, not below `1.2`. -/
theorem claim_C8_counterexample :
    backoff_delay 3 0 (some 502) = 4 ∧ ¬(backoff_delay 3 0 (some 502) < 12/10) := by
  have h : backoff_delay 3 0 (some 502) = 4 := by
    norm_num [backoff_delay, backoff_base_delay]
  refine ⟨h, ?_⟩
  rw [h]
  norm_num

/-- C8 (amended): with jitter drawn from `[0, 0.2)`, the retried
transport/server-failure delay lies in `[0.1, 0.3)` at attempt 0,
`[0.2, 0.4)` at attempt 1, `[0.5, 0.7)` at attempt 2, `[4.0, 4.2)` at
attempt 3 (the base is `min(60, 2^(a-1)) = 4`, not `1.0`), and
`[min(60, 2^(a-1)), min(60, 2^(a-1)) + 0.2)` for every attempt
`a >= 3`; a rate-limit status 429 overrides the delay to exactly 65
seconds regardless of the attempt index. -/
theorem claim_C8_theorem (attempt : Nat) (jitter : ℚ) (status : Option Nat)
    (hj0 : 0 ≤ jitter) (hj1 : jitter < 1/5) :
    (status = some 429 → backoff_delay attempt jitter status = 65) ∧
    (status ≠ some 429 →
      (attempt = 0 → 1/10 ≤ backoff_delay attempt jitter status ∧
        backoff_delay attempt jitter status < 3/10) ∧
      (attempt = 1 → 1/5 ≤ backoff_delay attempt jitter status ∧
        backoff_delay attempt jitter status < 2/5) ∧
      (attempt = 2 → 1/2 ≤ backoff_delay attempt jitter status ∧
        backoff_delay attempt jitter status < 7/10) ∧
      (attempt = 3 → 4 ≤ backoff_delay attempt jitter status ∧
        backoff_delay attempt jitter status < 21/5) ∧
      (3 ≤ attempt → min 60 ((2 : ℚ) ^ (attempt - 1)) ≤ backoff_delay attempt jitter status ∧
        backoff_delay attempt jitter status < min 60 ((2 : ℚ) ^ (attempt - 1)) + 1/5)) := by
  constructor
  · intro h429
    simp [backoff_delay, h429]
  · intro hne
    have hd : backoff_delay attempt jitter status = backoff_base_delay attempt + jitter := by
      simp [backoff_delay, hne]
    refine ⟨?_, ?_, ?_, ?_, ?_⟩
    · intro h; subst h
      rw [hd]
      norm_num [backoff_base_delay]
      constructor <;> linarith
    · intro h; subst h
      rw [hd]
      norm_num [backoff_base_delay]
      constructor <;> linarith
    · intro h; subst h
      rw [hd]
      norm_num [backoff_base_delay]
      constructor <;> linarith
    · intro h; subst h
      rw [hd]
      have hb : backoff_base_delay 3 = 4 := by norm_num [backoff_base_delay]
      rw [hb]
      constructor <;> linarith
    · intro h3
      rw [hd]
      have hb : backoff_base_delay attempt = min 60 ((2 : ℚ) ^ (attempt - 1)) := by
        unfold backoff_base_delay
        rw [if_neg (by omega), if_neg (by omega), if_neg (by omega)]
      rw [hb]
      constructor <;> linarith

/-- C8 witness: at attempt 3 with zero jitter on a 502 the delay is at
least 4 seconds, and at any attempt a 429 forces exactly 65 seconds. -/
theorem claim_C8_witness :
    4 ≤ backoff_delay 3 0 (some 502) ∧ backoff_delay 0 0 (some 429) = 65 := by
  refine ⟨((claim_C8_theorem 3 0 (some 502) (by norm_num) (by norm_num)).2
    (by simp) |>.2.2.2.1 rfl).1, ?_⟩
  exact (claim_C8_theorem 0 0 (some 429) (by norm_num) (by norm_num)).1 rfl

/-!
Claim C10 — the judge's missing-credential short circuit.
-/

/-- C10: with no credential configured, the judge makes no network
attempt and no retries — its result ignores the outcome oracle, the
context, the candidate list and the retry cap entirely — and
immediately returns the random draw `randint(1, 5)`, always in
`[1, 5]` (behaviour absent from the spec, and different from the call
client's "no credential" failure string). -/
theorem claim_C10_theorem (context : Str) (completions : List Str)
    (outcomes : Nat → GraderOutcome) (rand maxRetries : Nat) :
    get_grader_choice_with_retry context completions false outcomes rand maxRetries =
      pyRandint15 rand ∧
    1 ≤ pyRandint15 rand ∧ pyRandint15 rand ≤ 5 ∧
    (∀ (context2 : Str) (completions2 : List Str) (outcomes2 : Nat → GraderOutcome)
      (maxRetries2 : Nat),
      get_grader_choice_with_retry context2 completions2 false outcomes2 rand maxRetries2 =
        get_grader_choice_with_retry context completions false outcomes rand maxRetries) := by
  refine ⟨by simp [get_grader_choice_with_retry], (pyRandint15_range rand).1,
    (pyRandint15_range rand).2, ?_⟩
  intro context2 completions2 outcomes2 maxRetries2
  simp [get_grader_choice_with_retry]

/-!
Claim C2 — the candidate generator's positional join.
-/

/-- C2: for every count `N ≥ 1` (indeed every count) and every
interleaving of the five workers' writes that covers all slots (any
permutation of the dispatch order), `generate_completions_parallel`
returns exactly `count` entries and slot `i` (1-based) holds the
result of the `i`-th dispatched `get_completion_with_retry`
invocation, regardless of completion order. -/
theorem claim_C2_theorem (prompt : Str) (hasToken : Bool)
    (outcomes : Nat → Nat → AttemptOutcome) (count : Nat) (order : List Nat)
    (hperm : order.Perm (List.range count)) :
    generate_completions_parallel
        (fun i => get_completion_with_retry prompt hasToken (outcomes i) 10) order count =
      (List.range count).map
        (fun i => some (get_completion_with_retry prompt hasToken (outcomes i) 10)) ∧
    (generate_completions_parallel
        (fun i => get_completion_with_retry prompt hasToken (outcomes i) 10)
        order count).length = count ∧
    (∀ i, 1 ≤ i → i ≤ count →
      (generate_completions_parallel
          (fun i => get_completion_with_retry prompt hasToken (outcomes i) 10)
          order count)[i - 1]? =
        some (some (get_completion_with_retry prompt hasToken (outcomes (i - 1)) 10))) := by
  have h := generate_completions_parallel_perm
    (fun i => get_completion_with_retry prompt hasToken (outcomes i) 10) count order hperm
  refine ⟨h, ?_, ?_⟩
  · rw [h, List.length_map, List.length_range]
  · intro i h1 h2
    rw [h, List.getElem?_map, List.getElem?_range (by omega)]
    rfl

/-- C2 witness: with the concrete write interleaving `[3, 0, 4, 2, 1]`
of five successful calls, slot 3 holds the third call's text. -/
theorem claim_C2_witness :
    (generate_completions_parallel
        (fun i => get_completion_with_retry [] true
          ((fun i _ => AttemptOutcome.ok [Char.ofNat (49 + i)]) i) 10)
        [3, 0, 4, 2, 1] 5)[3 - 1]? = some (some ['3']) := by
  have h := (claim_C2_theorem [] true (fun i _ => .ok [Char.ofNat (49 + i)]) 5
    [3, 0, 4, 2, 1] (by decide)).2.2 3 (by decide) (by decide)
  rw [h]
  decide

/-!
Claim C6 — totality of the resilient call client.
-/

/-- C6: the call client always returns a string: with no credential it
is the fixed no-credential marker and zero network attempts are made
(for every oracle); otherwise the result is either some attempt's
success text or the exhausted failure marker; when no attempt
succeeds it is exactly the exhausted marker, which is never the empty
string (nor is the no-credential marker). -/
theorem claim_C6_theorem (prompt : Str) (outcomes : Nat → AttemptOutcome)
    (maxRetries : Nat) :
    (get_completion_with_retry prompt false outcomes maxRetries = noTokenMsg ∧
      completionAttemptCount false outcomes maxRetries = 0) ∧
    ((∃ j, j < maxRetries ∧
        outcomes j = .ok (get_completion_with_retry prompt true outcomes maxRetries)) ∨
      get_completion_with_retry prompt true outcomes maxRetries = exhaustedMsg maxRetries) ∧
    ((∀ j, j < maxRetries → isOkOutcome (outcomes j) = false) →
      get_completion_with_retry prompt true outcomes maxRetries = exhaustedMsg maxRetries) ∧
    exhaustedMsg maxRetries ≠ [] ∧ noTokenMsg ≠ [] := by
  refine ⟨⟨by simp [get_completion_with_retry], by simp [completionAttemptCount]⟩, ?_, ?_, ?_, by decide⟩
  · cases h : (completionGo outcomes maxRetries 0).1 with
    | some t =>
      left
      obtain ⟨j, hj, hoj⟩ := completionGo_ok_exists outcomes maxRetries 0 t h
      rw [Nat.zero_add] at hoj
      have hval : get_completion_with_retry prompt true outcomes maxRetries = t := by
        simp [get_completion_with_retry, h]
      exact ⟨j, hj, by rw [hval]; exact hoj⟩
    | none =>
      right
      simp [get_completion_with_retry, h]
  · intro hall
    have hnone := completionGo_none_of_no_ok outcomes maxRetries 0
      (fun j hj => by rw [Nat.zero_add]; exact hall j hj)
    simp [get_completion_with_retry, hnone]
  · unfold exhaustedMsg
    intro hcontra
    exact absurd (List.append_eq_nil.mp (List.append_eq_nil.mp hcontra).1).1 (by decide)

/-- C6 witness: ten server errors exhaust the retries and yield the
nonempty exhausted marker. -/
theorem claim_C6_witness :
    get_completion_with_retry [] true (fun _ => .reqErr (some 503)) 10 = exhaustedMsg 10 ∧
    exhaustedMsg 10 ≠ [] := by
  refine ⟨(claim_C6_theorem [] (fun _ => .reqErr (some 503)) 10).2.2.1 (by decide), ?_⟩
  exact (claim_C6_theorem [] (fun _ => .reqErr (some 503)) 10).2.2.2.1

/-!
Claim C7 — the auth/payment/forbidden abort.
-/

/-- C7: when attempt `k` (all earlier attempts having been retryable
failures) receives a 401, 402 or 403 status, the loop stops with
exactly `k + 1` attempts made — zero further retries — and the call
returns the definitive failure-marker string. -/
theorem claim_C7_theorem (prompt : Str) (outcomes : Nat → AttemptOutcome)
    (maxRetries k s : Nat) (hk : k < maxRetries)
    (hpre : ∀ j, j < k → isRetryableFailure (outcomes j) = true)
    (hauth : outcomes k = .reqErr (some s)) (hs : s = 401 ∨ s = 402 ∨ s = 403) :
    completionGo outcomes maxRetries 0 = (none, k + 1) ∧
    completionAttemptCount true outcomes maxRetries = k + 1 ∧
    get_completion_with_retry prompt true outcomes maxRetries = exhaustedMsg maxRetries := by
  have hsa : isAuthStatus (some s) = true := by
    rcases hs with h | h | h <;> subst h <;> decide
  have hgo := completionGo_auth_stop outcomes k maxRetries 0 (some s) hk
    (fun j hj => by rw [Nat.zero_add]; exact hpre j hj) hsa
    (by rw [Nat.zero_add]; exact hauth)
  rw [show 0 + k + 1 = k + 1 by omega] at hgo
  refine ⟨hgo, ?_, ?_⟩
  · simp [completionAttemptCount, hgo]
  · simp [get_completion_with_retry, hgo]

/-- C7 witness: a 402 on the third attempt (after two 503s) stops the
call at exactly three attempts with the failure marker. -/
theorem claim_C7_witness :
    completionGo (fun j => if j = 2 then .reqErr (some 402) else .reqErr (some 503)) 10 0 =
      (none, 3) ∧
    get_completion_with_retry [] true
      (fun j => if j = 2 then .reqErr (some 402) else .reqErr (some 503)) 10 =
      exhaustedMsg 10 := by
  have h := claim_C7_theorem []
    (fun j => if j = 2 then .reqErr (some 402) else .reqErr (some 503)) 10 2 402
    (by decide) (by decide) (by decide) (by decide)
  exact ⟨h.1, h.2.2⟩

/-!
Claim C3 — the judge's result range and random fallback.
-/

/-- C3: the claim asserts the judge's result always lies in `[1, N]`
for a candidate list of length `N`, but both the regex and the random
fallback hardcode `5`: with three candidates and every attempt
unparsable, the fallback draw can be `4`, which exceeds the list
length. -/
theorem claim_C3_counterexample :
    (∀ a, a < 10 → attemptUnparsable (noDigitOutcomes a) = true) ∧
    threeCandidates.length = 3 ∧
    get_grader_choice_with_retry [] threeCandidates true noDigitOutcomes 3 10 = 4 ∧
    ¬(get_grader_choice_with_retry [] threeCandidates true noDigitOutcomes 3 10 ≤
      threeCandidates.length) := by
  decide

/-- C3 (amended): for every context and candidate list, the judge
returns an integer in `[1, 5]` (not `[1, N]` — both the digit regex
and `randint` hardcode 5); in particular, when every retry attempt
yields a response with no parsable digit, it returns the uniform
random draw from `[1, 5]` — never 0, never an unresolved "no
decision". -/
theorem claim_C3_theorem (context : Str) (completions : List Str) (hasToken : Bool)
    (outcomes : Nat → GraderOutcome) (rand maxRetries : Nat) :
    (1 ≤ get_grader_choice_with_retry context completions hasToken outcomes rand maxRetries ∧
      get_grader_choice_with_retry context completions hasToken outcomes rand maxRetries ≤ 5) ∧
    ((∀ a, a < maxRetries → attemptUnparsable (outcomes a) = true) →
      get_grader_choice_with_retry context completions hasToken outcomes rand maxRetries =
        pyRandint15 rand) := by
  refine ⟨get_grader_choice_with_retry_range context completions hasToken outcomes
    rand maxRetries, ?_⟩
  intro hall
  have hnone := graderGo_none_of_unparsable outcomes maxRetries 0
    (fun j hj => by rw [Nat.zero_add]; exact hall j hj)
  by_cases ht : hasToken = false
  · simp [get_grader_choice_with_retry, ht]
  · simp [get_grader_choice_with_retry, ht, hnone]

/-- C3 witness: ten digit-free responses resolve to the random draw,
inside `[1, 5]`. -/
theorem claim_C3_witness :
    1 ≤ get_grader_choice_with_retry [] [] true noDigitOutcomes 3 10 ∧
    get_grader_choice_with_retry [] [] true noDigitOutcomes 3 10 = pyRandint15 3 :=
  ⟨(claim_C3_theorem [] [] true noDigitOutcomes 3 10).1.1,
    (claim_C3_theorem [] [] true noDigitOutcomes 3 10).2 (by decide)⟩

/-!
Claim C5 — parsing the first standalone digit.
-/

/-- C5: the claim asserts the parse extracts the first standalone
digit in `[1, N]`; with three candidates the first standalone digit in
`[1, 3]` of the response `"4 and 2"` is `2` (at index 6), but the
hardcoded `[1-5]` scan returns `4` as the decision. -/
theorem claim_C5_counterexample :
    threeCandidates.length = 3 ∧
    standaloneDigitAt 3 fourAndTwo 6 = true ∧
    (∀ j, j < 6 → standaloneDigitAt 3 fourAndTwo j = false) ∧
    digitValAt fourAndTwo 6 = 2 ∧
    get_grader_choice_with_retry [] threeCandidates true fourAndTwoOutcomes 0 10 = 4 := by
  decide

/-- C5 (amended): for every response text containing a standalone
(word-boundary-delimited) digit in `[1, 5]` — the range is hardcoded,
not `[1, N]` — the parsing step extracts the first such digit, and the
judge returns it as the decision on the first attempt. -/
theorem claim_C5_theorem (s : Str) (i : Nat)
    (h1 : standaloneDigitAt 5 s i = true)
    (h2 : ∀ j, j < i → standaloneDigitAt 5 s j = false) :
    graderParse s = some (digitValAt s i) ∧
    (∀ (context : Str) (completions : List Str) (outcomes : Nat → GraderOutcome)
      (rand maxRetries : Nat), outcomes 0 = .response s → 1 ≤ maxRetries →
      get_grader_choice_with_retry context completions true outcomes rand maxRetries =
        digitValAt s i) := by
  have hparse : graderParse s = some (digitValAt s i) := by
    unfold graderParse
    rw [reSearchDigit_pystrip]
    apply reSearchDigit_of_first
    · rw [← standaloneDigitAt_five_eq_scanCond]
      exact h1
    · intro j hj
      rw [← standaloneDigitAt_five_eq_scanCond]
      exact h2 j hj
  refine ⟨hparse, ?_⟩
  intro context completions outcomes rand maxRetries hresp hmax
  obtain ⟨f, rfl⟩ : ∃ f, maxRetries = f + 1 := ⟨maxRetries - 1, by omega⟩
  have hgo := graderGo_step_parsed outcomes f 0 s (digitValAt s i) hresp hparse
  simp [get_grader_choice_with_retry, hgo]

/-- C5 witness: the spec's own example shape — a verbose answer
containing the standalone digit 3 — parses to 3 and the judge decides
3. -/
theorem claim_C5_witness :
    standaloneDigitAt 5 option3Response 22 = true ∧
    graderParse option3Response = some 3 ∧
    get_grader_choice_with_retry [] [] true option3Outcomes 0 10 = 3 := by
  have h := claim_C5_theorem option3Response 22 (by decide) (by decide)
  refine ⟨by decide, ?_, ?_⟩
  · rw [h.1]
    decide
  · rw [h.2 [] [] option3Outcomes 0 10 rfl (by decide)]
    decide

/-!
Lemmas about one loom round.
-/

lemma roundCompletions_length (env : LoomEnv) (full_text : Str) :
    (roundCompletions env full_text).length = 5 := by
  unfold roundCompletions generate_completions_parallel
  rw [applyWrites_length, List.length_replicate]

lemma roundChosenIndex_range (env : LoomEnv) (full_text : Str) :
    1 ≤ roundChosenIndex env full_text ∧ roundChosenIndex env full_text ≤ 5 := by
  unfold roundChosenIndex get_grader_choice
  exact get_grader_choice_with_retry_range _ _ _ _ _ _

lemma loomRound_eq (env : LoomEnv) (iteration : Nat) (full_text : Str) :
    loomRound env iteration full_text =
      ([.iterationStart iteration, .completionStart 1, .completionStart 2,
        .completionStart 3, .completionStart 4, .completionStart 5] ++
        (roundCompletions env full_text).enum.map
          (fun p => Event.completionDone (p.1 + 1) p.2) ++
        [.gradingStart,
         .gradingDone (roundChosenIndex env full_text)
           ((roundCompletions env full_text).getD (roundChosenIndex env full_text - 1) none),
         .textUpdated (full_text ++ roundChosenText env full_text)] ++
        (if iteration = 3 then
          [.documentNamed (generate_document_name env
            (full_text ++ roundChosenText env full_text))]
         else []),
       some (full_text ++ roundChosenText env full_text)) := by
  have hrange := roundChosenIndex_range env full_text
  have hlen := roundCompletions_length env full_text
  simp only [loomRound]
  rw [if_pos ⟨by omega, hrange.1, by rw [hlen]; exact hrange.2⟩]

/-!
Claim C9 — the grading error branch is unreachable.
-/

/-- C9: in every round the candidate list has exactly 5 entries when
judging begins and the judge's index lies in `[1, length]`, so the
`grading_done` branch is always taken, the round always completes with
an updated document (`TERMINATED_ON_ERROR` is never entered) and no
`error` event is ever emitted. -/
theorem claim_C9_theorem (env : LoomEnv) (iteration : Nat) (full_text : Str) :
    (roundCompletions env full_text).length = 5 ∧
    (1 ≤ roundChosenIndex env full_text ∧
      roundChosenIndex env full_text ≤ (roundCompletions env full_text).length) ∧
    (loomRound env iteration full_text).2 =
      some (full_text ++ roundChosenText env full_text) ∧
    (∀ m, Event.error m ∉ (loomRound env iteration full_text).1) := by
  have hlen := roundCompletions_length env full_text
  have hrange := roundChosenIndex_range env full_text
  refine ⟨hlen, ⟨hrange.1, by rw [hlen]; exact hrange.2⟩, ?_, ?_⟩
  · rw [loomRound_eq]
  · intro m
    rw [loomRound_eq]
    split <;> simp

/-!
Claim C1 — the append step.
-/

/-- C1: the claim requires the prior document to be a *strict* prefix
of the new document after every completed round; in a round where
every generation call succeeds with the empty completion, the round
completes its append and the document is unchanged, so the prior
document is not a strict prefix of the new one. -/
theorem claim_C1_counterexample :
    (loomRound envEmptyWinner 1 ("ab".data)).2 = some ("ab".data) ∧
    ¬(∃ rest : Str, rest ≠ [] ∧ ("ab".data : Str) = "ab".data ++ rest) := by
  refine ⟨by decide, ?_⟩
  rintro ⟨rest, hne, heq⟩
  have hl := congrArg List.length heq
  rw [List.length_append] at hl
  exact hne (List.length_eq_zero.mp (by omega))

/-- C1 (amended): every round completes its append, and the document
after the round is exactly the prior document concatenated with the
judge-chosen candidate text — so the prior document is always a
prefix, and a strict prefix whenever the chosen candidate is nonempty
(a successful empty completion leaves the document unchanged); no
other operation of the round mutates the document. -/
theorem claim_C1_theorem (env : LoomEnv) (iteration : Nat) (full_text : Str) :
    (loomRound env iteration full_text).2 =
      some (full_text ++ roundChosenText env full_text) ∧
    (∃ rest : Str, full_text ++ roundChosenText env full_text = full_text ++ rest) ∧
    (roundChosenText env full_text ≠ [] →
      full_text ≠ full_text ++ roundChosenText env full_text) := by
  refine ⟨by rw [loomRound_eq], ⟨roundChosenText env full_text, rfl⟩, ?_⟩
  intro hne hcontra
  have hl := congrArg List.length hcontra
  rw [List.length_append] at hl
  exact hne (List.length_eq_zero.mp (by omega))

/-- C1 witness: a round whose five candidates are all `"x"` appends a
nonempty winner, making the prior document a strict prefix. -/
theorem claim_C1_witness :
    roundChosenText envPlainWinner ("ab".data) ≠ [] ∧
    "ab".data ≠ "ab".data ++ roundChosenText envPlainWinner ("ab".data) := by
  refine ⟨by decide, ?_⟩
  exact (claim_C1_theorem envPlainWinner 1 ("ab".data)).2.2 (by decide)
